import Mathlib

/-!
Verification development for the `useFormBuilder` record-editing engine
(source file: `src/unnamed/part_000`).

The hook's own logic (load orchestration, edit-buffer synthesis, validation,
save orchestration, snapshot queueing) is embedded as executable Lean
functions, translated directly from the source.  The dispatch-based state
container (`reducers/formbuilderReducer`, whose source file is not part of
this tree — only the hook that dispatches to it is) is modelled from the
specification's description of the lifecycle phases and action payloads.

Conventions of the shallow embedding:
* JavaScript values flowing through the edit buffer are `JSValue`;
  `null` and `undefined` are distinct constructors, because the source
  distinguishes them (`!== null` vs `=== undefined`).
* JavaScript objects are association lists (`Obj`); object spread is list
  append, and property lookup (`jget`) takes the *last* binding, which is
  exactly the last-write-wins semantics of `{...a, ...b}` and `o[k] = v`.
* Network responses, the current day (for the `DateTime` default) and the
  external guid validator are passed in as explicit parameters.
* Optional record slots collapse JS `null`/`undefined` to `Option.none`
  where the source treats the two alike on the claim-relevant paths.
-/

namespace FormBuilder

/-- JS value domain of the edit buffer: `string | boolean | number | null |
undefined`, plus the reserved `_ui_info_` metadata sub-object
`{canUpdate, canDelete}`. -/
inductive JSValue where
  | vstr (s : String)
  | vnum (n : Int)
  | vbool (b : Bool)
  | vnull
  | vundefined
  | vinfo (canUpdate canDelete : Bool)
deriving DecidableEq, Repr

/-- A JS object, as an association list; later entries override earlier ones. -/
abbrev Obj := List (String × JSValue)

/-- Property read `o[k]`: the last binding of `k` wins (spread/assignment
semantics). `none` means the key is absent. -/
def jget : Obj → String → Option JSValue
  | [], _ => none
  | p :: rest, k =>
    match jget rest k with
    | some v => some v
    | none => if p.1 = k then some p.2 else none

/-- Field type tags of the schema service (`MetadataResponse`), as the string
tags tested by the source (`"Single"`, `"Int32"`, …). -/
inductive FieldType where
  | Single | Int32 | Int64 | Double | Decimal
  | String | Guid | Boolean | DateTime | Lookup
deriving DecidableEq, Repr

/-- One field descriptor of the schema. -/
structure FieldMeta where
  name : String
  type : FieldType
  isNullable : Bool
  isRequired : Bool
  displayName : String
  lookupTable : String
  lookupTableNameField : String
deriving DecidableEq, Repr

/-- Schema for one table, as returned by the metadata service. -/
structure MetadataResponse where
  tableName : String
  fields : List FieldMeta
deriving DecidableEq, Repr

/-- A caller-supplied field default (`props.defaults` entry). -/
structure FieldValue where
  field : String
  value : JSValue
deriving DecidableEq, Repr

/-- Numeric type test, `field.type === "Single" || ... || field.type === "Decimal"`. -/
def isNumericType : FieldType → Bool
  | .Single | .Int32 | .Int64 | .Double | .Decimal => true
  | _ => false

/-- String-ish type test, `field.type === "String" || field.type === "Guid"`. -/
def isStringType : FieldType → Bool
  | .String | .Guid => true
  | _ => false

/-- JS nullish coalescing `a ?? b` for an optional chain result: `none`
(undefined), `some vundefined` and `some vnull` all fall through to `b`. -/
def nullish (a : Option JSValue) (b : JSValue) : JSValue :=
  match a with
  | none => b
  | some v => if v = JSValue.vnull ∨ v = JSValue.vundefined then b else v

/-- Lookup of a caller default: `props.defaults?.find((x) => x.field === name)?.value`. -/
def findDefaultValue (defaults : Option (List FieldValue)) (name : String) : Option JSValue :=
  ((defaults.getD []).find? (fun d => decide (d.field = name))).map FieldValue.value

/-- Translation of `getClearedValues` (source lines 212–288): per-type default
values for every schema field, followed by the reserved `_ui_info_` entry.
`todayISO` stands for `new Date()` with `setUTCHours(0,0,0,0)` rendered by
`toISOString()`, i.e. the start of the current day; the clock is an input of
the embedding.  The lookup-label pre-warming loop (lines 255–272) only
affects the external lookup cache, not the returned object, and is omitted. -/
def getClearedValues (todayISO : String) (defaults : Option (List FieldValue))
    (metadata : MetadataResponse) : Obj :=
  let numericDefaults := (metadata.fields.filter (fun f => isNumericType f.type)).map
    (fun f => (f.name, if f.isNullable then JSValue.vstr "" else JSValue.vnum 0))
  let stringDefaults := (metadata.fields.filter (fun f => isStringType f.type)).map
    (fun f => (f.name, JSValue.vstr ""))
  let booleanDefaults := (metadata.fields.filter (fun f => decide (f.type = FieldType.Boolean))).map
    (fun f => (f.name, JSValue.vbool false))
  let dateDefaults := (metadata.fields.filter (fun f => decide (f.type = FieldType.DateTime))).map
    (fun f => (f.name, if f.isNullable then JSValue.vnull else JSValue.vstr todayISO))
  let nullableLookupDefaults := (metadata.fields.filter (fun f => decide (f.type = FieldType.Lookup))).map
    (fun f => (f.name, nullish (findDefaultValue defaults f.name) JSValue.vnull))
  numericDefaults ++ stringDefaults ++ booleanDefaults ++ dateDefaults ++
    nullableLookupDefaults ++ [("_ui_info_", JSValue.vinfo true true)]

/-- Membership of a key among the schema's field names,
`metadata.fields.find((x) => x.name === key) !== undefined`. -/
def isSchemaField (metadata : MetadataResponse) (k : String) : Bool :=
  metadata.fields.any (fun f => decide (f.name = k))

/-- Filter applied to snapshot entries on the update path of `getInitialData`
(lines 192–202): keep a key when its value is not `null` and it is a schema
field, the reserved `_ui_info_` key, or the record id key `tableName + "Id"`. -/
def keepSnapshotEntry (tableName : String) (metadata : MetadataResponse)
    (kv : String × JSValue) : Bool :=
  decide (kv.2 ≠ JSValue.vnull) &&
    (isSchemaField metadata kv.1 || decide (kv.1 = "_ui_info_") ||
      decide (kv.1 = tableName ++ "Id"))

/-- Translation of `getInitialData` (source lines 177–210).  `none` metadata
yields `undefined` (the source's implicit fall-through); an absent snapshot is
the create path (cleared values overlaid with caller defaults); a present
snapshot is the update path (cleared values overlaid with the kept snapshot
entries).  The source's `snapshot === null` corner (which also falls through
to `undefined`) is collapsed into the absent case, which no claim exercises. -/
def getInitialData (todayISO : String) (defaults : Option (List FieldValue))
    (tableName : String) (metadata : Option MetadataResponse)
    (snapshot : Option Obj) : Option Obj :=
  match metadata with
  | none => none
  | some md =>
    match snapshot with
    | none =>
      some (getClearedValues todayISO defaults md ++
        (defaults.getD []).map (fun d => (d.field, d.value)))
    | some snap =>
      some (getClearedValues todayISO defaults md ++
        snap.filter (keepSnapshotEntry tableName md))

/-- Lifecycle phase of the record state container, per the specification:
`UNINITIALIZED → LOADING → READY → SUBMITTING → {READY | SUBMIT_CANCELLED}`. -/
inductive Phase where
  | UNINITIALIZED | LOADING | READY | SUBMITTING | SUBMIT_CANCELLED
deriving DecidableEq, Repr

/-- One validation message `{field, message}`. -/
structure ValidationMessage where
  field : String
  message : String
deriving DecidableEq, Repr

/-- State owned by the record state container (`state` of the reducer).
`canRead` is flattened into `canReadFlag`/`canReadMessage`. -/
structure FBState where
  tableName : String
  metadata : Option MetadataResponse
  snapshot : Option Obj
  data : Option Obj
  dirtyFields : List String
  validationMessages : List ValidationMessage
  canUpdate : Bool
  canCreate : Bool
  canReadFlag : Bool
  canReadMessage : String
  phase : Phase
  isLoading : Bool
  forceIsLoading : Bool
  isSubmitted : Bool
deriving DecidableEq, Repr

/-- Actions dispatched by the hook, with the payloads it passes
(`dispatch({type, payload})` sites of the source). -/
inductive Action where
  | START_INITIAL_LOAD (tableName : String) (data : Option Obj) (forceIsLoading : Bool)
  | INITIAL_LOAD_COMPLETE (metadata : MetadataResponse) (snapshot : Option Obj)
      (data : Option Obj) (canUpdate canCreate canReadFlag : Bool) (canReadMessage : String)
  | SET_DATA_TO_EDIT (data : Option Obj) (snapshot : Obj)
      (canUpdateOverride : Option Bool) (forceIsLoading : Bool)
  | SET_FIELD_VALUE (field : String) (value : JSValue)
  | SET_IS_LOADING
  | SUBMIT_CANCELLED
  | SUBMIT_COMPLETE
  | SET_VALIDATION_MESSAGES (messages : List ValidationMessage)
  | SET_VALIDATION_MESSAGE (field message : String)
deriving DecidableEq, Repr

/-- Modelled from the spec: the `formbuilderReducer` state transition function
(file `reducers/formbuilderReducer`, not part of this tree — only the hook that
dispatches to it is).  Per the specification: a non-refresh load first
transitions to `LOADING` with a provisional buffer; load completion and
snapshot assignment publish the synthesized buffer and transition to `READY`,
wholly replacing the buffer (hence resetting the dirty set and validation
messages); `SET_IS_LOADING` marks submission in flight (`SUBMITTING`);
`SUBMIT_CANCELLED` and `SUBMIT_COMPLETE` end a submission; validation
messages are published wholesale and appendable one at a time. -/
def reducer (st : FBState) (a : Action) : FBState :=
  match a with
  | .START_INITIAL_LOAD tn data forceIsLoading =>
    { st with phase := .LOADING, isLoading := true, tableName := tn,
              data := data, forceIsLoading := forceIsLoading }
  | .INITIAL_LOAD_COMPLETE md snapshot data canUpdate canCreate canReadFlag canReadMessage =>
    { st with phase := .READY, isLoading := false, metadata := some md,
              snapshot := snapshot, data := data, canUpdate := canUpdate,
              canCreate := canCreate, canReadFlag := canReadFlag,
              canReadMessage := canReadMessage,
              dirtyFields := [], validationMessages := [] }
  | .SET_DATA_TO_EDIT data snapshot canUpdateOverride forceIsLoading =>
    { st with phase := .READY, isLoading := false, data := data,
              snapshot := some snapshot,
              canUpdate := canUpdateOverride.getD st.canUpdate,
              forceIsLoading := forceIsLoading,
              dirtyFields := [], validationMessages := [] }
  | .SET_FIELD_VALUE field value =>
    { st with data := some ((st.data.getD []) ++ [(field, value)]),
              dirtyFields :=
                if field ∈ st.dirtyFields then st.dirtyFields
                else st.dirtyFields ++ [field] }
  | .SET_IS_LOADING => { st with phase := .SUBMITTING, isLoading := true }
  | .SUBMIT_CANCELLED => { st with phase := .SUBMIT_CANCELLED, isLoading := false }
  | .SUBMIT_COMPLETE => { st with phase := .READY, isLoading := false, isSubmitted := true }
  | .SET_VALIDATION_MESSAGES messages => { st with validationMessages := messages }
  | .SET_VALIDATION_MESSAGE field message =>
    { st with validationMessages := st.validationMessages ++ [⟨field, message⟩] }

/-- Modelled from the spec: `getFormBuilderInitState` (same missing reducer
file) — the container starts uninitialized and empty. -/
def getFormBuilderInitState : FBState :=
  { tableName := "", metadata := none, snapshot := none, data := none,
    dirtyFields := [], validationMessages := [], canUpdate := false,
    canCreate := false, canReadFlag := true, canReadMessage := "",
    phase := .UNINITIALIZED, isLoading := false, forceIsLoading := false,
    isSubmitted := false }

/-- Result of a pre-save hook, TS `SaveEventResponse`.  The TS field
`continue` is a Lean keyword and is rendered `cont`. -/
structure SaveEventResponse where
  cont : Bool
  parameters : Option Obj

/-- A registered event listener (`FBEvent`).  The callback is applied to
`(submissionData, parameters)` and its result compared with `=== false`;
post-save listeners are invoked for effect only, so a `JSValue` result
covers both uses. -/
structure FBEvent where
  eventName : String
  callback : Obj → Obj → JSValue

/-- Hook props (`useFormBuilderProps`).  `onPostSave` only matters through
its presence for the notification fan-out order, so it is a `Bool` here;
rendering-only props (lookup exclusions/queries) are omitted. -/
structure Props where
  tableName : String
  id : Option String
  metadata : Option MetadataResponse
  defaults : Option (List FieldValue)
  snapshot : Option Obj
  canUpdate : Option Bool
  canCreate : Option Bool
  onPreSave : Option (Obj → SaveEventResponse)
  onPostSave : Bool
  forceShowLoading : Option Bool

/-- Options of `onLoad`. -/
structure OnLoadOptions where
  id : Option String
  refresh : Bool
  refreshDatatables : Bool
  forceShowLoading : Option Bool
deriving Repr

/-- Response of `authRequest.read`; `results` is `data.results`, which the
source checks both for `null` and for emptiness. -/
structure ReadResp where
  succeeded : Bool
  results : Option (List Obj)
deriving Repr

/-- External inputs consumed during one `onLoad` run: the current day, the
schema fetched by table name, the record fetch response (`none` models a
`null` transport response), and the create grant level returned by the
permission store. -/
structure LoadEnv where
  todayISO : String
  fetchedMetadata : MetadataResponse
  readResp : Option ReadResp
  createPermission : String

/-- Combined result of a hook-level operation: the container state, the
snapshot queue (`snapshotQueue`), and the dispatched actions in order. -/
structure StepResult where
  st : FBState
  queue : List Obj
  actions : List Action
deriving Repr

/-- Reading `snapshot["_ui_info_"].canUpdate`.  The source would throw if the
key were absent or not the metadata object; that corner is rendered `false`. -/
def uiCanUpdate (o : Obj) : Bool :=
  match jget o "_ui_info_" with
  | some (JSValue.vinfo cu _) => cu
  | _ => false

/-- The templated missing-record message of `onLoad` (line 165). -/
def missingRecordMessage (tableName : String) : String :=
  "This record doesn\x27t exist or you are missing the required permissions to access " ++ tableName

/-- Translation of `setSnapshot` (source lines 290–306): with metadata known,
synthesize a buffer from the new snapshot and dispatch `SET_DATA_TO_EDIT`
(carrying the `props.canUpdate` override when the caller fixed it); with
metadata unknown, append the snapshot to the queue without dispatching. -/
def setSnapshot (todayISO : String) (props : Props) (st : FBState) (queue : List Obj)
    (snapshot : Obj) (forceShowLoading : Option Bool) : StepResult :=
  match st.metadata with
  | some md =>
    let data := getInitialData todayISO props.defaults props.tableName (some md) (some snapshot)
    let act := Action.SET_DATA_TO_EDIT data snapshot props.canUpdate (forceShowLoading.getD false)
    ⟨reducer st act, queue, [act]⟩
  | none => ⟨st, queue ++ [snapshot], []⟩

/-- Tail of `onLoad` from line 127 on: permission resolution, override flags,
buffer synthesis, the `INITIAL_LOAD_COMPLETE` dispatch, and the drain of the
snapshot queue (`snapshotQueue.pop()` takes the most recent entry, then the
queue is cleared; the source performs the drain at lines 171–175 and through
the effect at lines 641–646 once the completed state is visible — modelled
here as the immediate drain after completion).  `refreshDatatables` only
refreshes external views and is not part of the state result. -/
def onLoadComplete (props : Props) (env : LoadEnv) (st1 : FBState)
    (queue : List Obj) (startActs : List Action) (metadata : MetadataResponse)
    (missingRecord : Bool) (snapshot : Option Obj) (canUpdateFetched : Bool) : StepResult :=
  let canUpdate0 :=
    match props.snapshot with
    | some ps => uiCanUpdate ps
    | none => canUpdateFetched
  let initialData := getInitialData env.todayISO props.defaults props.tableName (some metadata) snapshot
  let canCreate0 := decide (env.createPermission ≠ "NONE")
  let canUpdate1 := if props.canUpdate = some false then false else canUpdate0
  let canCreate1 := if props.canCreate = some false then false else canCreate0
  let act := Action.INITIAL_LOAD_COMPLETE metadata snapshot initialData canUpdate1 canCreate1
    (!missingRecord) (if missingRecord then missingRecordMessage props.tableName else "")
  let st2 := reducer st1 act
  match queue.getLast? with
  | some qlast =>
    let r := setSnapshot env.todayISO props st2 queue.dropLast qlast none
    ⟨r.st, [], startActs ++ act :: r.actions⟩
  | none => ⟨st2, queue, startActs ++ [act]⟩

/-- The `START_INITIAL_LOAD` dispatch of a non-refresh `onLoad` (source lines
82–95): provisional buffer from the already-known schema, if any. -/
def startInitialLoadAction (props : Props) (env : LoadEnv) (options : OnLoadOptions)
    (st : FBState) : Action :=
  Action.START_INITIAL_LOAD props.tableName
    (match st.metadata with
     | some md => getInitialData env.todayISO props.defaults props.tableName (some md) none
     | none => none)
    (options.forceShowLoading.getD (props.forceShowLoading.getD false))

/-- Translation of `onLoad` (source lines 77–175).  An unconfigured table
name is a no-op; a non-refresh load first dispatches `START_INITIAL_LOAD`
with a provisional buffer; the schema is the caller-supplied one or the
fetched one; the record is fetched when no external snapshot was supplied and
an id is given, or on refresh — a `null`/failed response aborts silently,
zero rows flag the record missing, a row becomes the snapshot and carries its
embedded `canUpdate` flag. -/
def onLoad (props : Props) (env : LoadEnv) (options : OnLoadOptions)
    (st : FBState) (queue : List Obj) : StepResult :=
  if props.tableName = "" then ⟨st, queue, []⟩
  else
    let startActs : List Action :=
      if options.refresh then [] else [startInitialLoadAction props env options st]
    let st1 := startActs.foldl reducer st
    let metadata := props.metadata.getD env.fetchedMetadata
    if (props.snapshot.isNone && options.id.isSome) || options.refresh then
      match env.readResp with
      | none => ⟨st1, queue, startActs⟩
      | some resp =>
        if resp.succeeded then
          match resp.results with
          | none =>
            onLoadComplete props env st1 queue startActs metadata true props.snapshot false
          | some [] =>
            onLoadComplete props env st1 queue startActs metadata true props.snapshot false
          | some (r :: _) =>
            onLoadComplete props env st1 queue startActs metadata false (some r) (uiCanUpdate r)
        else ⟨st1, queue, startActs⟩
    else
      onLoadComplete props env st1 queue startActs metadata false props.snapshot false

/-- The computed operation kind exposed to consumers (source lines 672–674):
`UPDATE` when either the props snapshot or the state snapshot is set. -/
def operation (propsSnapshot : Option Obj) (st : FBState) : String :=
  if propsSnapshot.isSome || st.snapshot.isSome then "UPDATE" else "CREATE"

/-- Rendering of a JS value inside a template literal (only the partial
numeric inputs `"-"`/`"."` ever reach the message template). -/
def jsTemplate : JSValue → String
  | .vstr s => s
  | .vnum n => toString n
  | .vbool b => if b then "true" else "false"
  | .vnull => "null"
  | .vundefined => "undefined"
  | .vinfo _ _ => "[object Object]"

/-- Messages produced for one field by the validation pass of `onValidate`
(source lines 520–576): system audit fields are skipped; a numeric field
holding a partial numeric literal, a non-nullable/required lookup or date
field holding `null`/`undefined`, a required field holding
`null`/`undefined`/`""`, and a guid field whose non-empty value fails the
external guid validator each append a message, in this order. -/
def fieldMessages (guidValidate : JSValue → Bool) (requiredFields : List String)
    (data : Obj) (f : FieldMeta) : List ValidationMessage :=
  let fieldValue := (jget data f.name).getD JSValue.vundefined
  if f.name = "CreatedById" ∨ f.name = "UpdatedById" then []
  else
    (if isNumericType f.type = true ∧
        (fieldValue = JSValue.vstr "-" ∨ fieldValue = JSValue.vstr ".")
     then [⟨f.name, "\"" ++ jsTemplate fieldValue ++ "\" is not a valid number"⟩]
     else []) ++
    (if (f.type = FieldType.Lookup ∨ f.type = FieldType.DateTime) ∧
        (f.isNullable = false ∨ f.isRequired = true ∨ f.name ∈ requiredFields) ∧
        (fieldValue = JSValue.vundefined ∨ fieldValue = JSValue.vnull)
     then [⟨f.name, f.displayName ++ " is required"⟩]
     else []) ++
    (if (f.isRequired = true ∨ f.name ∈ requiredFields) ∧
        (fieldValue = JSValue.vundefined ∨ fieldValue = JSValue.vnull ∨
          fieldValue = JSValue.vstr "")
     then [⟨f.name, f.displayName ++ " is required"⟩]
     else []) ++
    (if f.type = FieldType.Guid ∧ fieldValue ≠ JSValue.vstr "" ∧
        guidValidate fieldValue = false
     then [⟨f.name, f.displayName ++ " is not a valid Id"⟩]
     else [])

/-- Accumulation of validation messages over the schema fields in order. -/
def collectMessages (guidValidate : JSValue → Bool) (requiredFields : List String)
    (data : Obj) : List FieldMeta → List ValidationMessage
  | [] => []
  | f :: rest =>
    fieldMessages guidValidate requiredFields data f ++
      collectMessages guidValidate requiredFields data rest

/-- Field list of an optional metadata value, `state.metadata?.fields ?? []`. -/
def fieldsOf : Option MetadataResponse → List FieldMeta
  | some md => md.fields
  | none => []

/-- Translation of `onValidate` (source lines 518–586): run the per-field
rules over the current buffer; when any message was produced, dispatch
`SET_VALIDATION_MESSAGES` with the full set and report failure, otherwise
report success without dispatching anything. -/
def onValidate (guidValidate : JSValue → Bool) (requiredFields : List String)
    (st : FBState) : Bool × FBState :=
  let messages := collectMessages guidValidate requiredFields (st.data.getD []) (fieldsOf st.metadata)
  if messages.length > 0 then
    (false, reducer st (Action.SET_VALIDATION_MESSAGES messages))
  else
    (true, st)

/-- Translation of `setFieldError` (source lines 588–596). -/
def setFieldError (st : FBState) (field message : String) : FBState :=
  reducer st (Action.SET_VALIDATION_MESSAGE field message)

/-- Translation of `setField` (source lines 308–319). -/
def setField (st : FBState) (field : String)
    (value : JSValue) : FBState :=
  reducer st (Action.SET_FIELD_VALUE field value)

/-- Translation of `isDirty` (source lines 321–326). -/
def isDirty (st : FBState) (field : Option String) : Bool :=
  match field with
  | none => decide (st.dirtyFields.length > 0)
  | some f => decide (f ∈ st.dirtyFields)

/-- The persistence request issued by `onSave`/`onSaveSilent` (source lines
444–452 and 499–507): `isCreate` stands for the endpoint/verb choice
(`API_DATA_CREATE`+`POST` when `state.snapshot === undefined`, else
`API_DATA_UPDATE`+`PATCH`); the body carries `state.metadata?.tableName`,
the submitted fields and the parameter bag. -/
structure PersistRequest where
  isCreate : Bool
  tableName : Option String
  fields : Obj
  parameters : Option Obj
deriving DecidableEq, Repr

/-- Response of the persistence call; `none` models a `null` response. -/
structure SaveResp where
  succeeded : Bool
  data : Obj
deriving DecidableEq, Repr

/-- External inputs of one save: the persistence response and the guid
validator backing `guid.validate`. -/
structure SaveEnv where
  resp : Option SaveResp
  guidValidate : JSValue → Bool

/-- Observable steps of a save run, in execution order: hook invocations,
the validator pass, dispatched actions, listener invocations (by index in
the registration list), the persistence call, the post-save fan-out and the
dependent-view refresh. -/
inductive SaveEvent where
  | preValidateCall (submissionData : Obj)
  | validatorRun
  | dispatched (a : Action)
  | instancePreSaveCall (submissionData : Obj)
  | listenerCall (idx : Nat) (eventName : String)
  | callSitePreSaveCall (submissionData : Obj)
  | persist (req : PersistRequest)
  | instancePostSaveCall (op : String) (newId : JSValue) (data : Obj)
  | callSitePostSaveCall (op : String) (newId : JSValue) (data : Obj)
  | reloadDataTablesCall
deriving DecidableEq, Repr

/-- Invocation records of the `POST_SAVE` listener loop (each listener is
called with `(operation, newRecordId, serverData)`; results are ignored). -/
def postSaveListenerEvents : Nat → List FBEvent → List SaveEvent
  | _, [] => []
  | i, l :: rest =>
    if l.eventName = "POST_SAVE" then
      SaveEvent.listenerCall i "POST_SAVE" :: postSaveListenerEvents (i + 1) rest
    else postSaveListenerEvents (i + 1) rest

/-- The failure-path notification fan-out of `onSave` (source lines 479–491):
instance hook, `POST_SAVE` listeners, then the call-site hook, each with
`("FAILED", "", {})`. -/
def savePostFailedEvents (props : Props) (eventListeners : List FBEvent)
    (postSaveEvent : Bool) : List SaveEvent :=
  (if props.onPostSave then
    [SaveEvent.instancePostSaveCall "FAILED" (JSValue.vstr "") []] else []) ++
  postSaveListenerEvents 0 eventListeners ++
  (if postSaveEvent then
    [SaveEvent.callSitePostSaveCall "FAILED" (JSValue.vstr "") []] else [])

/-- The post-save notification fan-out of `onSave` (source lines 454–491):
on a succeeded response the three channels fire with
`("CREATE"|"UPDATE", resp.data[tableName + "Id"], resp.data)`; a `null` or
failed response fires the failure fan-out instead. -/
def savePostEvents (props : Props) (env : SaveEnv) (eventListeners : List FBEvent)
    (postSaveEvent : Bool) (st : FBState) : List SaveEvent :=
  match env.resp with
  | some resp =>
    if resp.succeeded then
      let op := if st.snapshot.isNone then "CREATE" else "UPDATE"
      let newId := (jget resp.data (props.tableName ++ "Id")).getD JSValue.vundefined
      (if props.onPostSave then
        [SaveEvent.instancePostSaveCall op newId resp.data] else []) ++
      postSaveListenerEvents 0 eventListeners ++
      (if postSaveEvent then
        [SaveEvent.callSitePostSaveCall op newId resp.data] else [])
    else savePostFailedEvents props eventListeners postSaveEvent
  | none => savePostFailedEvents props eventListeners postSaveEvent

/-- Persistence step of `onSave` (source lines 443–496): issue the request
(create when no snapshot exists, else update, with the submission payload and
the parameter bag), run the post-save fan-out, dispatch `SUBMIT_COMPLETE`
and refresh the dependent views. -/
def onSavePersist (props : Props) (env : SaveEnv) (eventListeners : List FBEvent)
    (postSaveEvent : Bool) (sd params : Obj) (st : FBState) : FBState × List SaveEvent :=
  let req : PersistRequest :=
    ⟨st.snapshot.isNone, st.metadata.map MetadataResponse.tableName, sd, some params⟩
  let evs := savePostEvents props env eventListeners postSaveEvent st
  (reducer st Action.SUBMIT_COMPLETE,
    SaveEvent.persist req :: evs ++
      [SaveEvent.dispatched Action.SUBMIT_COMPLETE, SaveEvent.reloadDataTablesCall])

/-- Call-site `preSaveEvent` step of `onSave` (source lines 427–440):
`continue === false` dispatches `SUBMIT_CANCELLED` and aborts, otherwise its
parameters are merged into the bag. -/
def onSaveCallSitePre (props : Props) (env : SaveEnv) (eventListeners : List FBEvent)
    (preSaveEvent : Option (Obj → SaveEventResponse)) (postSaveEvent : Bool)
    (sd params : Obj) (st : FBState) : FBState × List SaveEvent :=
  match preSaveEvent with
  | none => onSavePersist props env eventListeners postSaveEvent sd params st
  | some f =>
    let r := f sd
    if r.cont = false then
      (reducer st Action.SUBMIT_CANCELLED,
        [SaveEvent.callSitePreSaveCall sd, SaveEvent.dispatched Action.SUBMIT_CANCELLED])
    else
      let next := onSavePersist props env eventListeners postSaveEvent sd
        (params ++ r.parameters.getD []) st
      (next.1, SaveEvent.callSitePreSaveCall sd :: next.2)

/-- The `PRE_SAVE` listener loop of `onSave` (source lines 415–425): each
registered listener is invoked in registration order with the submission
payload and the current parameter bag; a listener result `=== false`
dispatches `SUBMIT_CANCELLED` and aborts, short-circuiting the rest. -/
def onSaveListenerLoop (props : Props) (env : SaveEnv) (allListeners : List FBEvent)
    (preSaveEvent : Option (Obj → SaveEventResponse)) (postSaveEvent : Bool)
    (sd params : Obj) (st : FBState) : Nat → List FBEvent → FBState × List SaveEvent
  | _, [] => onSaveCallSitePre props env allListeners preSaveEvent postSaveEvent sd params st
  | i, l :: rest =>
    if l.eventName = "PRE_SAVE" then
      if l.callback sd params = JSValue.vbool false then
        (reducer st Action.SUBMIT_CANCELLED,
          [SaveEvent.listenerCall i "PRE_SAVE", SaveEvent.dispatched Action.SUBMIT_CANCELLED])
      else
        let next := onSaveListenerLoop props env allListeners preSaveEvent postSaveEvent
          sd params st (i + 1) rest
        (next.1, SaveEvent.listenerCall i "PRE_SAVE" :: next.2)
    else
      onSaveListenerLoop props env allListeners preSaveEvent postSaveEvent sd params st (i + 1) rest

/-- Instance-level `props.onPreSave` step of `onSave` (source lines 389–403):
same cancel semantics as the call-site hook, then the listener loop. -/
def onSaveInstancePre (props : Props) (env : SaveEnv) (eventListeners : List FBEvent)
    (preSaveEvent : Option (Obj → SaveEventResponse)) (postSaveEvent : Bool)
    (sd params : Obj) (st : FBState) : FBState × List SaveEvent :=
  match props.onPreSave with
  | none =>
    onSaveListenerLoop props env eventListeners preSaveEvent postSaveEvent sd params st 0 eventListeners
  | some f =>
    let r := f sd
    if r.cont = false then
      (reducer st Action.SUBMIT_CANCELLED,
        [SaveEvent.instancePreSaveCall sd, SaveEvent.dispatched Action.SUBMIT_CANCELLED])
    else
      let next := onSaveListenerLoop props env eventListeners preSaveEvent postSaveEvent
        sd (params ++ r.parameters.getD []) st 0 eventListeners
      (next.1, SaveEvent.instancePreSaveCall sd :: next.2)

/-- Validation step of `onSave` (source lines 382–387): run `onValidate`;
failure aborts (messages already published), success dispatches
`SET_IS_LOADING` and continues. -/
def onSaveValidate (props : Props) (env : SaveEnv) (requiredFields : List String)
    (eventListeners : List FBEvent) (preSaveEvent : Option (Obj → SaveEventResponse))
    (postSaveEvent : Bool) (sd params : Obj) (st : FBState) : FBState × List SaveEvent :=
  let v := onValidate env.guidValidate requiredFields st
  if v.1 = false then (v.2, [SaveEvent.validatorRun])
  else
    let st2 := reducer v.2 Action.SET_IS_LOADING
    let next := onSaveInstancePre props env eventListeners preSaveEvent postSaveEvent sd params st2
    (next.1, SaveEvent.validatorRun :: SaveEvent.dispatched Action.SET_IS_LOADING :: next.2)

/-- Translation of `onSave` (source lines 360–496).  The submission payload
is `{...state.data}` snapshotted at entry and the parameter bag starts empty;
a given `preValidate` hook whose result does not say continue aborts before
anything else happens (the source tests `!preResult.continue`; the later
hooks test `=== false`, which coincides on the boolean contract). -/
def onSave (props : Props) (env : SaveEnv) (requiredFields : List String)
    (eventListeners : List FBEvent)
    (preValidate preSaveEvent : Option (Obj → SaveEventResponse))
    (postSaveEvent : Bool) (st : FBState) : FBState × List SaveEvent :=
  let submissionData := st.data.getD []
  let parameters : Obj := []
  match preValidate with
  | none =>
    onSaveValidate props env requiredFields eventListeners preSaveEvent postSaveEvent
      submissionData parameters st
  | some f =>
    let r := f submissionData
    if r.cont = false then (st, [SaveEvent.preValidateCall submissionData])
    else
      let next := onSaveValidate props env requiredFields eventListeners preSaveEvent
        postSaveEvent submissionData (parameters ++ r.parameters.getD []) st
      (next.1, SaveEvent.preValidateCall submissionData :: next.2)

/-- Translation of `onSaveSilent` (source lines 498–509): issue the same
create-or-update request from the live buffer and the caller's parameters,
dispatch nothing, invoke nothing else, and return the raw response data
(the source would throw on a `null` response; that corner is rendered `[]`). -/
def onSaveSilent (env : SaveEnv) (st : FBState) (parameters : Option Obj) :
    FBState × List SaveEvent × Obj :=
  let req : PersistRequest :=
    ⟨st.snapshot.isNone, st.metadata.map MetadataResponse.tableName, st.data.getD [], parameters⟩
  (st, [SaveEvent.persist req], (env.resp.map SaveResp.data).getD [])

/-- Persist requests among a save run's events. -/
def persistEvents (evs : List SaveEvent) : List SaveEvent :=
  evs.filter (fun e => match e with | SaveEvent.persist _ => true | _ => false)

/-- The per-field create defaults in the words of the specification (claim
C3), with no caller-supplied defaults: numerics `0` (`""` when nullable),
strings and guids `""`, booleans `false`, dates the start of the current day
(`null` when nullable), lookups `null`.  Stated for comparison against the
source-derived `getClearedValues`. -/
def specCreateDefault (todayISO : String) (f : FieldMeta) : JSValue :=
  match f.type with
  | .Single | .Int32 | .Int64 | .Double | .Decimal =>
    if f.isNullable then JSValue.vstr "" else JSValue.vnum 0
  | .String | .Guid => JSValue.vstr ""
  | .Boolean => JSValue.vbool false
  | .DateTime => if f.isNullable then JSValue.vnull else JSValue.vstr todayISO
  | .Lookup => JSValue.vnull

/-- The value `getClearedValues` assigns to a schema field, read off the five
default groups of the source (general caller-defaults form). -/
def clearedDefaultValue (todayISO : String) (defaults : Option (List FieldValue))
    (f : FieldMeta) : JSValue :=
  match f.type with
  | .Single | .Int32 | .Int64 | .Double | .Decimal =>
    if f.isNullable then JSValue.vstr "" else JSValue.vnum 0
  | .String | .Guid => JSValue.vstr ""
  | .Boolean => JSValue.vbool false
  | .DateTime => if f.isNullable then JSValue.vnull else JSValue.vstr todayISO
  | .Lookup => nullish (findDefaultValue defaults f.name) JSValue.vnull

/-- Invocation records produced by the `PRE_SAVE` listener loop for a stretch
of listeners none of which cancels, starting at registration index `i`. -/
def preSaveCalls : Nat → List FBEvent → List SaveEvent
  | _, [] => []
  | i, l :: rest =>
    if l.eventName = "PRE_SAVE" then
      SaveEvent.listenerCall i "PRE_SAVE" :: preSaveCalls (i + 1) rest
    else preSaveCalls (i + 1) rest

/-- Concrete schema exercising every claim-relevant field category. -/
def c3md : MetadataResponse :=
  ⟨"Widget",
   [⟨"Name", .String, false, true, "Name", "", ""⟩,
    ⟨"Qty", .Int32, true, false, "Qty", "", ""⟩,
    ⟨"Count", .Int64, false, false, "Count", "", ""⟩,
    ⟨"Flag", .Boolean, false, false, "Flag", "", ""⟩,
    ⟨"When", .DateTime, false, false, "When", "", ""⟩,
    ⟨"Due", .DateTime, true, false, "Due", "", ""⟩,
    ⟨"Ref", .Lookup, true, false, "Ref", "Other", "Name"⟩,
    ⟨"Key", .Guid, false, false, "Key", "", ""⟩]⟩

/-- Concrete inputs for exercising the queued-snapshot scenario. -/
def c1md : MetadataResponse :=
  ⟨"Widget", [⟨"Name", .String, false, true, "Name", "", ""⟩]⟩

def c1props : Props :=
  ⟨"Widget", some "1", none, none, none, none, none, none, false, none⟩

def c1row : Obj :=
  [("WidgetId", JSValue.vstr "1"), ("Name", JSValue.vstr "Loaded"),
   ("_ui_info_", JSValue.vinfo true true)]

def c1env : LoadEnv := ⟨"D", c1md, some ⟨true, some [c1row]⟩, "ALL"⟩

def c1opts : OnLoadOptions := ⟨some "1", false, false, none⟩

def c1qA : Obj := [("Name", JSValue.vstr "QueuedOld")]

def c1qB : Obj := [("Name", JSValue.vstr "QueuedNew")]

/-- Concrete inputs for the missing-record scenario. -/
def c8env : LoadEnv := ⟨"D", c1md, some ⟨true, some []⟩, "ALL"⟩

/-- Concrete inputs for the failed-fetch scenario. -/
def c9env : LoadEnv := ⟨"D", c1md, some ⟨false, none⟩, "ALL"⟩

/-- A container state carrying messages published by an earlier failed
validation, whose buffer would now validate cleanly. -/
def c5stale : FBState :=
  { getFormBuilderInitState with
    data := some [],
    validationMessages := [⟨"Name", "Name is required"⟩] }

/-- A state whose buffer fails validation (required `Name` is empty). -/
def c5fail : FBState :=
  { getFormBuilderInitState with
    metadata := some c1md,
    data := some [("Name", JSValue.vstr "")] }

/-- Persistence environment answering success with a fresh record id. -/
def c6env : SaveEnv :=
  ⟨some ⟨true, [("WidgetId", JSValue.vstr "1")]⟩, fun _ => true⟩

/-- A ready state holding a loaded record (update path). -/
def c10st : FBState :=
  { getFormBuilderInitState with
    metadata := some c1md,
    snapshot := some c1row,
    data := some c1row,
    phase := .READY }

/-- Three registered listeners: a passing `PRE_SAVE` listener, a cancelling
one, and a later one that must never run. -/
def c7l1 : FBEvent := ⟨"PRE_SAVE", fun _ _ => JSValue.vbool true⟩

def c7l2 : FBEvent := ⟨"PRE_SAVE", fun _ _ => JSValue.vbool false⟩

def c7l3 : FBEvent := ⟨"PRE_SAVE", fun _ _ => JSValue.vbool true⟩

/-- Props with an instance-level pre-save hook contributing parameters. -/
def c2props : Props :=
  ⟨"Widget", some "1", none, none, none, none, none,
   some (fun _ => ⟨true, some [("b", JSValue.vnum 2)]⟩), false, none⟩

/-! ## Basic lemmas about object lookup -/

theorem jget_append_of_eq_none (a b : Obj) (k : String) (h : jget b k = none) :
    jget (a ++ b) k = jget a k := by
  induction a with
  | nil => simpa [jget] using h
  | cons p a ih => simp [jget, ih]

theorem jget_append_of_eq_some (a b : Obj) (k : String) (v : JSValue)
    (h : jget b k = some v) : jget (a ++ b) k = some v := by
  induction a with
  | nil => simpa [jget] using h
  | cons p a ih => simp [jget, ih]

theorem jget_append (a b : Obj) (k : String) :
    jget (a ++ b) k =
      match jget b k with
      | some v => some v
      | none => jget a k := by
  cases h : jget b k with
  | some v => simpa using jget_append_of_eq_some a b k v h
  | none => simpa using jget_append_of_eq_none a b k h

theorem jget_isSome_iff (o : Obj) (k : String) :
    (jget o k).isSome = true ↔ k ∈ o.map Prod.fst := by
  induction o with
  | nil => simp [jget]
  | cons p o ih =>
    simp only [jget, List.map_cons, List.mem_cons]
    cases h : jget o k with
    | some v =>
      simp only [h] at ih
      constructor
      · intro _
        exact Or.inr (ih.mp rfl)
      · intro _
        rfl
    | none =>
      simp only [h] at ih
      by_cases hp : p.1 = k
      · simp [hp, eq_comm]
      · simp only [if_neg hp]
        simp only [Option.isSome_none, Bool.false_eq_true, false_iff] at ih ⊢
        exact fun hc => hc.elim (fun hk => hp hk.symm) ih

theorem jget_eq_none_iff (o : Obj) (k : String) :
    jget o k = none ↔ k ∉ o.map Prod.fst := by
  rw [← jget_isSome_iff]
  cases jget o k <;> simp

theorem jget_group (fields : List FieldMeta) (phi : FieldMeta → Bool)
    (g : FieldMeta → JSValue) (f : FieldMeta) (hf : f ∈ fields)
    (hnd : (fields.map FieldMeta.name).Nodup) :
    jget ((fields.filter phi).map (fun x => (x.name, g x))) f.name =
      if phi f then some (g f) else none := by
  induction fields with
  | nil => cases hf
  | cons x rest ih =>
    simp only [List.map_cons, List.nodup_cons] at hnd
    obtain ⟨hx, hnd'⟩ := hnd
    have hsub : ∀ kk, kk ∉ rest.map FieldMeta.name →
        jget ((rest.filter phi).map (fun x => (x.name, g x))) kk = none := by
      intro kk hkk
      rw [jget_eq_none_iff]
      intro hmem
      apply hkk
      rw [List.map_map] at hmem
      obtain ⟨y, hy, hyk⟩ := List.mem_map.mp hmem
      exact hyk ▸ List.mem_map_of_mem FieldMeta.name (List.mem_of_mem_filter hy)
    rcases List.mem_cons.mp hf with rfl | hf'
    · have hnone := hsub f.name hx
      rw [List.filter_cons]
      by_cases hphi : phi f
      · simp [hphi, jget, hnone]
      · simp [hphi, hnone]
    · have hne : x.name ≠ f.name := by
        intro h
        exact hx (h ▸ List.mem_map_of_mem FieldMeta.name hf')
      rw [List.filter_cons]
      by_cases hphix : phi x
      · simp only [hphix, if_true, List.map_cons, jget]
        rw [ih hf' hnd']
        by_cases hphif : phi f
        · simp [hphif]
        · simp [hphif, hne]
      · simp only [hphix, Bool.false_eq_true, if_false]
        exact ih hf' hnd'

theorem jget_filter (o : Obj) (phi : String × JSValue → Bool) (k : String)
    (hnd : (o.map Prod.fst).Nodup) :
    jget (o.filter phi) k =
      match jget o k with
      | some v => if phi (k, v) then some v else none
      | none => none := by
  induction o with
  | nil => simp [jget]
  | cons p o ih =>
    obtain ⟨a, b⟩ := p
    simp only [List.map_cons, List.nodup_cons] at hnd
    obtain ⟨hp, hnd'⟩ := hnd
    specialize ih hnd'
    rw [List.filter_cons]
    cases h : jget o k with
    | some v =>
      have hk : k ∈ o.map Prod.fst := (jget_isSome_iff o k).mp (by simp [h])
      have hak : a ≠ k := fun hc => hp (by simpa [hc] using hk)
      rw [h] at ih
      simp only [jget, h]
      by_cases hphi : phi (a, b)
      · simp only [hphi, if_true, jget, ih]
        by_cases hv : phi (k, v)
        · simp [hv]
        · simp [hv, hak]
      · simp only [hphi, Bool.false_eq_true, if_false, ih]
    | none =>
      have hk : k ∉ o.map Prod.fst := (jget_eq_none_iff o k).mp h
      have hfilt : jget (o.filter phi) k = none := by
        rw [jget_eq_none_iff]
        intro hmem
        apply hk
        obtain ⟨y, hy, hyk⟩ := List.mem_map.mp hmem
        exact hyk ▸ List.mem_map_of_mem Prod.fst (List.mem_of_mem_filter hy)
      rw [h] at ih
      simp only [jget, h]
      by_cases hphi : phi (a, b)
      · simp only [hphi, if_true, jget, hfilt]
        by_cases hak : a = k
        · subst hak
          simp [hphi]
        · simp [hak]
      · simp only [hphi, Bool.false_eq_true, if_false, hfilt]
        by_cases hak : a = k
        · subst hak
          simp [hphi, hfilt]
        · simp [hak, hfilt]

theorem jget_cleared_eq (todayISO : String) (defaults : Option (List FieldValue))
    (md : MetadataResponse) (f : FieldMeta) (hf : f ∈ md.fields)
    (hnd : (md.fields.map FieldMeta.name).Nodup)
    (hui : "_ui_info_" ∉ md.fields.map FieldMeta.name) :
    jget (getClearedValues todayISO defaults md) f.name =
      some (clearedDefaultValue todayISO defaults f) := by
  have hfui : f.name ≠ "_ui_info_" := by
    intro h
    exact hui (h ▸ List.mem_map_of_mem FieldMeta.name hf)
  have h1 := jget_group md.fields (fun x => isNumericType x.type)
    (fun x => if x.isNullable then JSValue.vstr "" else JSValue.vnum 0) f hf hnd
  have h2 := jget_group md.fields (fun x => isStringType x.type)
    (fun _ => JSValue.vstr "") f hf hnd
  have h3 := jget_group md.fields (fun x => decide (x.type = FieldType.Boolean))
    (fun _ => JSValue.vbool false) f hf hnd
  have h4 := jget_group md.fields (fun x => decide (x.type = FieldType.DateTime))
    (fun x => if x.isNullable then JSValue.vnull else JSValue.vstr todayISO) f hf hnd
  have h5 := jget_group md.fields (fun x => decide (x.type = FieldType.Lookup))
    (fun x => nullish (findDefaultValue defaults x.name) JSValue.vnull) f hf hnd
  have hlast : jget [("_ui_info_", JSValue.vinfo true true)] f.name = none := by
    simp only [jget]
    rw [if_neg (fun h => hfui h.symm)]
  simp only [getClearedValues, List.append_assoc]
  rw [jget_append, jget_append, jget_append, jget_append, jget_append]
  rw [h1, h2, h3, h4, h5, hlast]
  cases htype : f.type <;>
    simp [clearedDefaultValue, isNumericType, isStringType, htype]

theorem group_keys_sub (fields : List FieldMeta) (phi : FieldMeta → Bool)
    (g : FieldMeta → JSValue) (k : String)
    (h : k ∈ ((fields.filter phi).map (fun x => (x.name, g x))).map Prod.fst) :
    k ∈ fields.map FieldMeta.name := by
  rw [List.map_map] at h
  obtain ⟨y, hy, hyk⟩ := List.mem_map.mp h
  exact hyk ▸ List.mem_map_of_mem FieldMeta.name (List.mem_of_mem_filter hy)

theorem jget_cleared_ui (todayISO : String) (defaults : Option (List FieldValue))
    (md : MetadataResponse) :
    jget (getClearedValues todayISO defaults md) "_ui_info_" =
      some (JSValue.vinfo true true) := by
  simp only [getClearedValues, List.append_assoc]
  rw [jget_append, jget_append, jget_append, jget_append, jget_append]
  simp [jget]

/-- C3: synthesizing the edit buffer for a create (absent snapshot, no
caller-supplied defaults) yields an object whose keys are exactly the
schema's field names plus the reserved `_ui_info_` key, each field holding
its per-type default (numerics `0`, or `""` when nullable; strings and guids
`""`; booleans `false`; dates the start of the current day, or `null` when
nullable; lookups `null`), and `_ui_info_` holding
`{canUpdate: true, canDelete: true}`. -/
theorem C3_create_buffer_defaults (todayISO tbl : String) (md : MetadataResponse)
    (hnd : (md.fields.map FieldMeta.name).Nodup)
    (hui : "_ui_info_" ∉ md.fields.map FieldMeta.name) :
    getInitialData todayISO none tbl (some md) none = some (getClearedValues todayISO none md) ∧
    (∀ k, (jget (getClearedValues todayISO none md) k).isSome = true ↔
      (k ∈ md.fields.map FieldMeta.name ∨ k = "_ui_info_")) ∧
    (∀ f ∈ md.fields, jget (getClearedValues todayISO none md) f.name =
      some (specCreateDefault todayISO f)) ∧
    jget (getClearedValues todayISO none md) "_ui_info_" = some (JSValue.vinfo true true) := by
  have hval : ∀ f ∈ md.fields, jget (getClearedValues todayISO none md) f.name =
      some (specCreateDefault todayISO f) := by
    intro f hf
    rw [jget_cleared_eq todayISO none md f hf hnd hui]
    cases f.type <;> rfl
  refine ⟨by simp [getInitialData], ?_, hval, jget_cleared_ui todayISO none md⟩
  intro k
  constructor
  · intro h
    have hmem := (jget_isSome_iff _ k).mp h
    simp only [getClearedValues, List.append_assoc, List.map_append, List.mem_append] at hmem
    rcases hmem with hm | hm | hm | hm | hm | hm
    · exact Or.inl (group_keys_sub _ _ _ _ hm)
    · exact Or.inl (group_keys_sub _ _ _ _ hm)
    · exact Or.inl (group_keys_sub _ _ _ _ hm)
    · exact Or.inl (group_keys_sub _ _ _ _ hm)
    · exact Or.inl (group_keys_sub _ _ _ _ hm)
    · right
      simpa using hm
  · rintro (hk | rfl)
    · obtain ⟨f, hf, rfl⟩ := List.mem_map.mp hk
      rw [hval f hf]
      rfl
    · rw [jget_cleared_ui]
      rfl

theorem C3_create_buffer_defaults_witness :
    ((c3md.fields.map FieldMeta.name).Nodup ∧
      "_ui_info_" ∉ c3md.fields.map FieldMeta.name) ∧
    getInitialData "D" none "Widget" (some c3md) none = some (getClearedValues "D" none c3md) ∧
    ((jget (getClearedValues "D" none c3md) "Nope").isSome = true ↔
      ("Nope" ∈ c3md.fields.map FieldMeta.name ∨ "Nope" = "_ui_info_")) ∧
    jget (getClearedValues "D" none c3md) "Qty" =
      some (specCreateDefault "D" ⟨"Qty", .Int32, true, false, "Qty", "", ""⟩) ∧
    jget (getClearedValues "D" none c3md) "_ui_info_" = some (JSValue.vinfo true true) := by
  have h := C3_create_buffer_defaults "D" "Widget" c3md (by decide) (by decide)
  exact ⟨⟨by decide, by decide⟩, h.1, h.2.1 "Nope",
    h.2.2.1 ⟨"Qty", .Int32, true, false, "Qty", "", ""⟩ (by decide), h.2.2.2⟩

theorem keepSnapshotEntry_eq_true (tbl : String) (md : MetadataResponse)
    (k : String) (v : JSValue) :
    keepSnapshotEntry tbl md (k, v) = true ↔
      (v ≠ JSValue.vnull ∧
        (isSchemaField md k = true ∨ k = "_ui_info_" ∨ k = tbl ++ "Id")) := by
  simp [keepSnapshotEntry, Bool.and_eq_true, Bool.or_eq_true, decide_eq_true_eq,
    and_assoc, or_assoc]

/-- C4: on the update path (present snapshot), the synthesized buffer is the
computed per-type defaults overlaid with exactly those snapshot keys whose
value is non-`null` and which are a known schema field, the reserved
`_ui_info_` key, or the record id key `tableName + "Id"`; every other
snapshot key is dropped and the computed default is retained. -/
theorem C4_update_overlay (todayISO : String) (defaults : Option (List FieldValue))
    (tbl : String) (md : MetadataResponse) (snap : Obj)
    (hnd : (snap.map Prod.fst).Nodup) :
    getInitialData todayISO defaults tbl (some md) (some snap) =
      some (getClearedValues todayISO defaults md ++ snap.filter (keepSnapshotEntry tbl md)) ∧
    ∀ k, jget ((getInitialData todayISO defaults tbl (some md) (some snap)).getD []) k =
      match jget snap k with
      | some v =>
        if v ≠ JSValue.vnull ∧ (isSchemaField md k = true ∨ k = "_ui_info_" ∨ k = tbl ++ "Id")
        then some v
        else jget (getClearedValues todayISO defaults md) k
      | none => jget (getClearedValues todayISO defaults md) k := by
  refine ⟨rfl, ?_⟩
  intro k
  simp only [getInitialData, Option.getD_some]
  rw [jget_append, jget_filter snap _ k hnd]
  cases h : jget snap k with
  | none => rfl
  | some v =>
    dsimp only
    by_cases hkeep : v ≠ JSValue.vnull ∧
        (isSchemaField md k = true ∨ k = "_ui_info_" ∨ k = tbl ++ "Id")
    · rw [if_pos ((keepSnapshotEntry_eq_true tbl md k v).mpr hkeep), if_pos hkeep]
    · rw [if_neg (fun hb => hkeep ((keepSnapshotEntry_eq_true tbl md k v).mp hb)),
        if_neg hkeep]

theorem C4_update_overlay_witness :
    (([("WidgetId", JSValue.vstr "1"), ("Name", JSValue.vstr "A"),
        ("Status", JSValue.vnull), ("Junk", JSValue.vstr "x")] :
          Obj).map Prod.fst).Nodup ∧
    jget ((getInitialData "D" none "Widget"
        (some ⟨"Widget", [⟨"Name", .String, false, true, "Name", "", ""⟩,
                          ⟨"Status", .String, true, false, "Status", "", ""⟩]⟩)
        (some [("WidgetId", JSValue.vstr "1"), ("Name", JSValue.vstr "A"),
               ("Status", JSValue.vnull), ("Junk", JSValue.vstr "x")])).getD []) "Status" =
      jget (getClearedValues "D" none
        ⟨"Widget", [⟨"Name", .String, false, true, "Name", "", ""⟩,
                    ⟨"Status", .String, true, false, "Status", "", ""⟩]⟩) "Status" ∧
    jget ((getInitialData "D" none "Widget"
        (some ⟨"Widget", [⟨"Name", .String, false, true, "Name", "", ""⟩,
                          ⟨"Status", .String, true, false, "Status", "", ""⟩]⟩)
        (some [("WidgetId", JSValue.vstr "1"), ("Name", JSValue.vstr "A"),
               ("Status", JSValue.vnull), ("Junk", JSValue.vstr "x")])).getD []) "Status" =
      some (JSValue.vstr "") ∧
    jget ((getInitialData "D" none "Widget"
        (some ⟨"Widget", [⟨"Name", .String, false, true, "Name", "", ""⟩,
                          ⟨"Status", .String, true, false, "Status", "", ""⟩]⟩)
        (some [("WidgetId", JSValue.vstr "1"), ("Name", JSValue.vstr "A"),
               ("Status", JSValue.vnull), ("Junk", JSValue.vstr "x")])).getD []) "Name" =
      some (JSValue.vstr "A") := by
  have h := C4_update_overlay "D" none "Widget"
    ⟨"Widget", [⟨"Name", .String, false, true, "Name", "", ""⟩,
                ⟨"Status", .String, true, false, "Status", "", ""⟩]⟩
    [("WidgetId", JSValue.vstr "1"), ("Name", JSValue.vstr "A"),
     ("Status", JSValue.vnull), ("Junk", JSValue.vstr "x")] (by decide)
  refine ⟨by decide, ?_, by decide, ?_⟩
  · have hs := h.2 "Status"
    simpa using hs
  · have hn := h.2 "Name"
    simpa using hn

/-- C1: a snapshot assignment arriving while the schema is unknown does not
mutate the container state and only enqueues the snapshot; once the next
load completes (here: a successful fetch returning a row `r`), exactly the
most recent queued snapshot is drained — the queue empties and the final
buffer and snapshot reflect the queued snapshot `s`, not the load's own
snapshot argument. -/
theorem C1_queued_snapshot (todayISO : String) (props : Props) (env : LoadEnv)
    (options : OnLoadOptions) (st : FBState) (queue q0 : List Obj) (s : Obj)
    (fsl : Option Bool) (resp : ReadResp) (r : Obj) (rs : List Obj) :
    (st.metadata = none →
      setSnapshot todayISO props st queue s fsl = ⟨st, queue ++ [s], []⟩) ∧
    (props.tableName ≠ "" →
      env.readResp = some resp →
      resp.succeeded = true →
      resp.results = some (r :: rs) →
      ((props.snapshot.isNone && options.id.isSome) || options.refresh) = true →
      (onLoad props env options st (q0 ++ [s])).queue = [] ∧
      (onLoad props env options st (q0 ++ [s])).st.snapshot = some s ∧
      (onLoad props env options st (q0 ++ [s])).st.data =
        getInitialData env.todayISO props.defaults props.tableName
          (some (props.metadata.getD env.fetchedMetadata)) (some s) ∧
      (onLoad props env options st (q0 ++ [s])).st.phase = Phase.READY) := by
  constructor
  · intro h
    simp [setSnapshot, h]
  · intro htbl hresp hsucc hres hcond
    simp [onLoad, onLoadComplete, setSnapshot, reducer, htbl, hcond, hresp, hsucc, hres]

theorem C1_queued_snapshot_witness :
    (setSnapshot "D" c1props getFormBuilderInitState [c1qA] c1qB none =
      ⟨getFormBuilderInitState, [c1qA, c1qB], []⟩) ∧
    (onLoad c1props c1env c1opts getFormBuilderInitState [c1qA, c1qB]).queue = [] ∧
    (onLoad c1props c1env c1opts getFormBuilderInitState [c1qA, c1qB]).st.snapshot = some c1qB ∧
    (onLoad c1props c1env c1opts getFormBuilderInitState [c1qA, c1qB]).st.data =
      getInitialData "D" none "Widget" (some c1md) (some c1qB) ∧
    (onLoad c1props c1env c1opts getFormBuilderInitState [c1qA, c1qB]).st.phase = Phase.READY := by
  have h := C1_queued_snapshot "D" c1props c1env c1opts getFormBuilderInitState
    [c1qA] [c1qA] c1qB none ⟨true, some [c1row]⟩ c1row []
  exact ⟨h.1 rfl, h.2 (by decide) rfl rfl rfl rfl⟩

/-- C8: when the record fetch succeeds with zero rows, the load still
completes (phase `READY`) with `canRead` false, a readability message that
is the missing-record template naming the table, no snapshot set, and the
computed operation kind remaining `CREATE`. -/
theorem C8_missing_record (props : Props) (env : LoadEnv) (options : OnLoadOptions)
    (st : FBState) (resp : ReadResp)
    (htbl : props.tableName ≠ "")
    (hsnap : props.snapshot = none)
    (hid : options.id.isSome = true)
    (hresp : env.readResp = some resp)
    (hsucc : resp.succeeded = true)
    (hzero : resp.results = some []) :
    (onLoad props env options st []).st.canReadFlag = false ∧
    (onLoad props env options st []).st.canReadMessage = missingRecordMessage props.tableName ∧
    (∃ pre, (onLoad props env options st []).st.canReadMessage = pre ++ props.tableName) ∧
    (onLoad props env options st []).st.snapshot = none ∧
    operation props.snapshot (onLoad props env options st []).st = "CREATE" ∧
    (onLoad props env options st []).st.phase = Phase.READY := by
  have hcond : ((props.snapshot.isNone && options.id.isSome) || options.refresh) = true := by
    simp [hsnap, hid]
  simp [onLoad, onLoadComplete, reducer, operation, htbl, hcond, hid, hresp, hsucc, hzero,
    hsnap, missingRecordMessage]
  exact ⟨_, rfl⟩

theorem C8_missing_record_witness :
    (onLoad c1props c8env c1opts getFormBuilderInitState []).st.canReadFlag = false ∧
    (onLoad c1props c8env c1opts getFormBuilderInitState []).st.canReadMessage =
      missingRecordMessage "Widget" ∧
    (∃ pre, (onLoad c1props c8env c1opts getFormBuilderInitState []).st.canReadMessage =
      pre ++ "Widget") ∧
    (onLoad c1props c8env c1opts getFormBuilderInitState []).st.snapshot = none ∧
    operation none (onLoad c1props c8env c1opts getFormBuilderInitState []).st = "CREATE" ∧
    (onLoad c1props c8env c1opts getFormBuilderInitState []).st.phase = Phase.READY :=
  C8_missing_record c1props c8env c1opts getFormBuilderInitState ⟨true, some []⟩
    (by decide) rfl rfl rfl rfl rfl

/-- C9: a transport-level fetch failure (`null` response or
`succeeded:false`) aborts the load silently: the state, queue and dispatched
actions are exactly those already produced before the fetch — a refresh load
leaves the container untouched, and a non-refresh load has already
transitioned to `LOADING` and stays there. -/
theorem C9_fetch_failure_silent (props : Props) (env : LoadEnv) (options : OnLoadOptions)
    (st : FBState) (queue : List Obj)
    (htbl : props.tableName ≠ "")
    (hcond : ((props.snapshot.isNone && options.id.isSome) || options.refresh) = true)
    (hfail : env.readResp = none ∨ ∃ resp, env.readResp = some resp ∧ resp.succeeded = false) :
    (options.refresh = true → onLoad props env options st queue = ⟨st, queue, []⟩) ∧
    (options.refresh = false →
      onLoad props env options st queue =
        ⟨reducer st (startInitialLoadAction props env options st), queue,
          [startInitialLoadAction props env options st]⟩ ∧
      (onLoad props env options st queue).st.phase = Phase.LOADING) := by
  constructor
  · intro hrefresh
    rcases hfail with hnone | ⟨resp, hsome, hfalse⟩
    · simp [onLoad, htbl, hcond, hrefresh, hnone]
    · simp [onLoad, htbl, hcond, hrefresh, hsome, hfalse]
  · intro hrefresh
    have hcond2 : (props.snapshot.isNone && options.id.isSome) = true := by
      simpa [hrefresh] using hcond
    rcases hfail with hnone | ⟨resp, hsome, hfalse⟩
    · constructor
      · simp [onLoad, htbl, hcond2, hrefresh, hnone]
      · simp [onLoad, htbl, hcond2, hrefresh, hnone, reducer, startInitialLoadAction]
    · constructor
      · simp [onLoad, htbl, hcond2, hrefresh, hsome, hfalse]
      · simp [onLoad, htbl, hcond2, hrefresh, hsome, hfalse, reducer, startInitialLoadAction]

theorem C9_fetch_failure_silent_witness :
    (onLoad c1props c9env c1opts getFormBuilderInitState [] =
      ⟨reducer getFormBuilderInitState
        (startInitialLoadAction c1props c9env c1opts getFormBuilderInitState), [],
        [startInitialLoadAction c1props c9env c1opts getFormBuilderInitState]⟩) ∧
    (onLoad c1props c9env c1opts getFormBuilderInitState []).st.phase = Phase.LOADING :=
  (C9_fetch_failure_silent c1props c9env c1opts getFormBuilderInitState []
    (by decide) rfl (Or.inr ⟨⟨false, none⟩, rfl, rfl⟩)).2 rfl

/-- C5 (amended): after a validation pass, if any message was produced the
pass fails and publishes the full message set; if none was produced the pass
succeeds and leaves the container state entirely unchanged — in particular,
previously published validation messages are not cleared. -/
theorem C5_validation_publish_or_unchanged (g : JSValue → Bool)
    (requiredFields : List String) (st : FBState) :
    (collectMessages g requiredFields (st.data.getD []) (fieldsOf st.metadata) ≠ [] →
      onValidate g requiredFields st =
        (false, { st with
          validationMessages :=
            collectMessages g requiredFields (st.data.getD []) (fieldsOf st.metadata) })) ∧
    (collectMessages g requiredFields (st.data.getD []) (fieldsOf st.metadata) = [] →
      onValidate g requiredFields st = (true, st)) := by
  constructor
  · intro h
    have hlen : 0 < (collectMessages g requiredFields (st.data.getD [])
        (fieldsOf st.metadata)).length := List.length_pos.mpr h
    simp [onValidate, reducer, hlen]
  · intro h
    simp [onValidate, h]

/-- C5 counterexample: at `c5stale` the validation pass produces no message
and succeeds, yet the container's validation messages are NOT cleared — they
still hold the stale message, refuting the claim that a passing validation
clears the message set. -/
theorem C5_counterexample :
    collectMessages (fun _ => true) [] (c5stale.data.getD []) (fieldsOf c5stale.metadata) = [] ∧
    (onValidate (fun _ => true) [] c5stale).1 = true ∧
    (onValidate (fun _ => true) [] c5stale).2.validationMessages =
      [⟨"Name", "Name is required"⟩] :=
  ⟨rfl, rfl, by decide⟩

theorem C5_validation_publish_or_unchanged_witness :
    (collectMessages (fun _ => true) [] (c5fail.data.getD []) (fieldsOf c5fail.metadata) =
      [⟨"Name", "Name is required"⟩]) ∧
    onValidate (fun _ => true) [] c5fail =
      (false, { c5fail with validationMessages := [⟨"Name", "Name is required"⟩] }) ∧
    onValidate (fun _ => true) [] c5stale = (true, c5stale) := by
  have h1 := (C5_validation_publish_or_unchanged (fun _ => true) [] c5fail).1
  have h2 := (C5_validation_publish_or_unchanged (fun _ => true) [] c5stale).2
  refine ⟨rfl, ?_, h2 rfl⟩
  simpa using h1 (by decide)

/-- C6: a `preValidate` hook answering cancel makes `onSave` abort before
anything else: the returned container state is the input state unchanged
(same phase, dirty set and buffer), and the only observable step is the hook
invocation itself — no validator run, no dispatch, no listener and no
persistence call. -/
theorem C6_prevalidate_cancel (props : Props) (env : SaveEnv) (requiredFields : List String)
    (eventListeners : List FBEvent) (fpv : Obj → SaveEventResponse)
    (preSaveEvent : Option (Obj → SaveEventResponse)) (postSaveEvent : Bool) (st : FBState)
    (h : (fpv (st.data.getD [])).cont = false) :
    onSave props env requiredFields eventListeners (some fpv) preSaveEvent postSaveEvent st =
      (st, [SaveEvent.preValidateCall (st.data.getD [])]) := by
  simp [onSave, h]

theorem C6_prevalidate_cancel_witness :
    onSave c1props c6env [] [] (some (fun _ => ⟨false, none⟩)) none false
        getFormBuilderInitState =
      (getFormBuilderInitState, [SaveEvent.preValidateCall []]) :=
  C6_prevalidate_cancel c1props c6env [] [] (fun _ => ⟨false, none⟩) none false
    getFormBuilderInitState rfl

/-- C10: `saveSilent` issues exactly one observable step — the persistence
request (create when no snapshot exists, else update, carrying the table
name from the metadata, the live buffer and the caller's parameter bag) —
returns the raw response data, and leaves the container state unchanged:
no dispatch, no validation, no listener invocation, no dependent-view
refresh. -/
theorem C10_saveSilent_frame (env : SaveEnv) (st : FBState) (params : Option Obj)
    (r : SaveResp) (hresp : env.resp = some r) :
    onSaveSilent env st params =
      (st, [SaveEvent.persist ⟨st.snapshot.isNone, st.metadata.map MetadataResponse.tableName,
        st.data.getD [], params⟩], r.data) := by
  simp [onSaveSilent, hresp]

theorem C10_saveSilent_frame_witness :
    onSaveSilent c6env c10st (some [("p", JSValue.vstr "1")]) =
      (c10st, [SaveEvent.persist ⟨false, some "Widget", c1row,
        some [("p", JSValue.vstr "1")]⟩], [("WidgetId", JSValue.vstr "1")]) := by
  have h := C10_saveSilent_frame c6env c10st (some [("p", JSValue.vstr "1")])
    ⟨true, [("WidgetId", JSValue.vstr "1")]⟩ rfl
  simpa [c10st, c1md, c1row] using h

theorem onValidate_eq_of_true (g : JSValue → Bool) (requiredFields : List String)
    (st : FBState) (h : (onValidate g requiredFields st).1 = true) :
    onValidate g requiredFields st = (true, st) := by
  by_cases hc : collectMessages g requiredFields (st.data.getD []) (fieldsOf st.metadata) = []
  · simp [onValidate, hc]
  · exfalso
    have hlen : 0 < (collectMessages g requiredFields (st.data.getD [])
        (fieldsOf st.metadata)).length := List.length_pos.mpr hc
    simp [onValidate, hlen] at h

theorem onSaveListenerLoop_break (props : Props) (env : SaveEnv)
    (allListeners : List FBEvent) (preSaveEvent : Option (Obj → SaveEventResponse))
    (postSaveEvent : Bool) (sd params : Obj) (st : FBState)
    (L1 L2 : List FBEvent) (l : FBEvent) (i : Nat)
    (hL1 : ∀ e ∈ L1, e.eventName = "PRE_SAVE" → e.callback sd params ≠ JSValue.vbool false)
    (hl : l.eventName = "PRE_SAVE") (hlf : l.callback sd params = JSValue.vbool false) :
    onSaveListenerLoop props env allListeners preSaveEvent postSaveEvent sd params st i
        (L1 ++ l :: L2) =
      (reducer st Action.SUBMIT_CANCELLED,
        preSaveCalls i L1 ++ [SaveEvent.listenerCall (i + L1.length) "PRE_SAVE",
          SaveEvent.dispatched Action.SUBMIT_CANCELLED]) := by
  induction L1 generalizing i with
  | nil => simp [onSaveListenerLoop, preSaveCalls, hl, hlf]
  | cons e L1x ih =>
    simp only [List.cons_append, onSaveListenerLoop, List.append_eq]
    by_cases he : e.eventName = "PRE_SAVE"
    · have hne := hL1 e (List.mem_cons_self e L1x) he
      rw [if_pos he, if_neg hne,
        ih (i + 1) (fun x hx hpx => hL1 x (List.mem_cons_of_mem e hx) hpx)]
      have harr : i + 1 + L1x.length = i + (L1x.length + 1) := by omega
      simp [preSaveCalls, he, harr]
    · rw [if_neg he, ih (i + 1) (fun x hx hpx => hL1 x (List.mem_cons_of_mem e hx) hpx)]
      have harr : i + 1 + L1x.length = i + (L1x.length + 1) := by omega
      simp [preSaveCalls, he, harr]

theorem onSaveListenerLoop_all_pass (props : Props) (env : SaveEnv)
    (allListeners : List FBEvent) (preSaveEvent : Option (Obj → SaveEventResponse))
    (postSaveEvent : Bool) (sd params : Obj) (st : FBState) (ls : List FBEvent) (i : Nat)
    (h : ∀ e ∈ ls, e.eventName = "PRE_SAVE" → e.callback sd params ≠ JSValue.vbool false) :
    onSaveListenerLoop props env allListeners preSaveEvent postSaveEvent sd params st i ls =
      ((onSaveCallSitePre props env allListeners preSaveEvent postSaveEvent sd params st).1,
        preSaveCalls i ls ++
          (onSaveCallSitePre props env allListeners preSaveEvent postSaveEvent sd params st).2) := by
  induction ls generalizing i with
  | nil => simp [onSaveListenerLoop, preSaveCalls]
  | cons e rest ih =>
    simp only [onSaveListenerLoop]
    by_cases he : e.eventName = "PRE_SAVE"
    · have hne := h e (List.mem_cons_self e rest) he
      rw [if_pos he, if_neg hne, ih (i + 1) (fun x hx hpx => h x (List.mem_cons_of_mem e hx) hpx)]
      simp [preSaveCalls, he]
    · rw [if_neg he, ih (i + 1) (fun x hx hpx => h x (List.mem_cons_of_mem e hx) hpx)]
      simp [preSaveCalls, he]

/-- C7: during save, `PRE_SAVE` listeners run in registration order; the
first one returning `false` dispatches `SUBMIT_CANCELLED` and aborts the
save immediately: the trace contains the passing prefix's invocations in
order, then the cancelling listener's invocation and the cancel dispatch —
no later listener, no persistence call — and the phase becomes
`SUBMIT_CANCELLED`. -/
theorem C7_presave_listener_short_circuit (props : Props) (env : SaveEnv)
    (requiredFields : List String) (L1 L2 : List FBEvent) (l : FBEvent)
    (preSaveEvent : Option (Obj → SaveEventResponse)) (postSaveEvent : Bool) (st : FBState)
    (hnopv : props.onPreSave = none)
    (hval : (onValidate env.guidValidate requiredFields st).1 = true)
    (hL1 : ∀ e ∈ L1, e.eventName = "PRE_SAVE" →
      e.callback (st.data.getD []) [] ≠ JSValue.vbool false)
    (hl : l.eventName = "PRE_SAVE")
    (hlf : l.callback (st.data.getD []) [] = JSValue.vbool false) :
    onSave props env requiredFields (L1 ++ l :: L2) none preSaveEvent postSaveEvent st =
      (reducer (reducer st Action.SET_IS_LOADING) Action.SUBMIT_CANCELLED,
        SaveEvent.validatorRun :: SaveEvent.dispatched Action.SET_IS_LOADING ::
          (preSaveCalls 0 L1 ++ [SaveEvent.listenerCall L1.length "PRE_SAVE",
            SaveEvent.dispatched Action.SUBMIT_CANCELLED])) ∧
    (onSave props env requiredFields (L1 ++ l :: L2) none preSaveEvent postSaveEvent st).1.phase =
      Phase.SUBMIT_CANCELLED := by
  have hv := onValidate_eq_of_true env.guidValidate requiredFields st hval
  have hbreak := onSaveListenerLoop_break props env (L1 ++ l :: L2) preSaveEvent postSaveEvent
    (st.data.getD []) [] (reducer st Action.SET_IS_LOADING) L1 L2 l 0 hL1 hl hlf
  have heq : onSave props env requiredFields (L1 ++ l :: L2) none preSaveEvent postSaveEvent st =
      (reducer (reducer st Action.SET_IS_LOADING) Action.SUBMIT_CANCELLED,
        SaveEvent.validatorRun :: SaveEvent.dispatched Action.SET_IS_LOADING ::
          (preSaveCalls 0 L1 ++ [SaveEvent.listenerCall L1.length "PRE_SAVE",
            SaveEvent.dispatched Action.SUBMIT_CANCELLED])) := by
    simp only [onSave, onSaveValidate, onSaveInstancePre, hv, hnopv]
    simp [hbreak]
  refine ⟨heq, ?_⟩
  rw [heq]
  simp [reducer]

theorem C7_presave_listener_short_circuit_witness :
    onSave c1props c6env [] [c7l1, c7l2, c7l3] none none false c10st =
      (reducer (reducer c10st Action.SET_IS_LOADING) Action.SUBMIT_CANCELLED,
        [SaveEvent.validatorRun, SaveEvent.dispatched Action.SET_IS_LOADING,
         SaveEvent.listenerCall 0 "PRE_SAVE", SaveEvent.listenerCall 1 "PRE_SAVE",
         SaveEvent.dispatched Action.SUBMIT_CANCELLED]) ∧
    (onSave c1props c6env [] [c7l1, c7l2, c7l3] none none false c10st).1.phase =
      Phase.SUBMIT_CANCELLED := by
  have h := C7_presave_listener_short_circuit c1props c6env [] [c7l1] [c7l3] c7l2
    none false c10st rfl (by decide) (by decide) rfl rfl
  refine ⟨?_, h.2⟩
  simpa [preSaveCalls, c7l1] using h.1

theorem persistEvents_nil : persistEvents [] = [] := rfl

theorem persistEvents_append (a b : List SaveEvent) :
    persistEvents (a ++ b) = persistEvents a ++ persistEvents b := by
  simp [persistEvents, List.filter_append]

theorem persistEvents_cons (e : SaveEvent) (evs : List SaveEvent) :
    persistEvents (e :: evs) =
      (match e with
       | SaveEvent.persist _ => [e]
       | _ => []) ++ persistEvents evs := by
  cases e <;> simp [persistEvents, List.filter_cons]

theorem persistEvents_postListeners (i : Nat) (ls : List FBEvent) :
    persistEvents (postSaveListenerEvents i ls) = [] := by
  induction ls generalizing i with
  | nil => rfl
  | cons l rest ih =>
    simp only [postSaveListenerEvents]
    by_cases h : l.eventName = "POST_SAVE"
    · rw [if_pos h, persistEvents_cons]
      simpa using ih (i + 1)
    · rw [if_neg h]
      exact ih (i + 1)

theorem persistEvents_savePostFailedEvents (props : Props) (ls : List FBEvent) (pse : Bool) :
    persistEvents (savePostFailedEvents props ls pse) = [] := by
  cases hb : props.onPostSave <;> cases hc : pse <;>
    simp [savePostFailedEvents, hb, hc, persistEvents_append, persistEvents_cons,
      persistEvents_postListeners, persistEvents_nil]

theorem persistEvents_savePostEvents (props : Props) (env : SaveEnv) (ls : List FBEvent)
    (pse : Bool) (st : FBState) :
    persistEvents (savePostEvents props env ls pse st) = [] := by
  cases hresp : env.resp with
  | none => simp [savePostEvents, hresp, persistEvents_savePostFailedEvents]
  | some resp =>
    cases hs : resp.succeeded
    · simp [savePostEvents, hresp, hs, persistEvents_savePostFailedEvents]
    · cases hb : props.onPostSave <;> cases hc : pse <;>
        simp [savePostEvents, hresp, hs, hb, hc, persistEvents_append, persistEvents_cons,
          persistEvents_postListeners, persistEvents_nil]

theorem persistEvents_onSavePersist (props : Props) (env : SaveEnv) (ls : List FBEvent)
    (pse : Bool) (sd params : Obj) (st : FBState) :
    persistEvents (onSavePersist props env ls pse sd params st).2 =
      [SaveEvent.persist ⟨st.snapshot.isNone, st.metadata.map MetadataResponse.tableName,
        sd, some params⟩] := by
  simp [onSavePersist, persistEvents_cons, persistEvents_append,
    persistEvents_savePostEvents, persistEvents_nil]

theorem persistEvents_preSaveCalls (i : Nat) (ls : List FBEvent) :
    persistEvents (preSaveCalls i ls) = [] := by
  induction ls generalizing i with
  | nil => rfl
  | cons l rest ih =>
    simp only [preSaveCalls]
    by_cases h : l.eventName = "PRE_SAVE"
    · rw [if_pos h, persistEvents_cons]
      simpa using ih (i + 1)
    · rw [if_neg h]
      exact ih (i + 1)

/-- C2: when a save run passes its pre-validate hook, the validator, the
instance pre-save hook, every `PRE_SAVE` listener and the call-site pre-save
hook, it issues exactly one persistence request: a create precisely when no
snapshot exists (else an update), carrying the metadata's table name, the
submission payload snapshotted from the edit buffer at the start of the
save, and the parameter bag accumulated from the three hooks in order. -/
theorem C2_persist_request (props : Props) (env : SaveEnv) (requiredFields : List String)
    (eventListeners : List FBEvent) (fpv fI fps : Obj → SaveEventResponse)
    (p1 p2 p3 : Obj) (postSaveEvent : Bool) (st : FBState)
    (hpv : fpv (st.data.getD []) = ⟨true, some p1⟩)
    (hinst : props.onPreSave = some fI)
    (hI : fI (st.data.getD []) = ⟨true, some p2⟩)
    (hval : (onValidate env.guidValidate requiredFields st).1 = true)
    (hls : ∀ e ∈ eventListeners, e.eventName = "PRE_SAVE" →
      e.callback (st.data.getD []) (p1 ++ p2) ≠ JSValue.vbool false)
    (hps : fps (st.data.getD []) = ⟨true, some p3⟩) :
    persistEvents (onSave props env requiredFields eventListeners (some fpv) (some fps)
        postSaveEvent st).2 =
      [SaveEvent.persist ⟨st.snapshot.isNone, st.metadata.map MetadataResponse.tableName,
        st.data.getD [], some (p1 ++ p2 ++ p3)⟩] := by
  have hv := onValidate_eq_of_true env.guidValidate requiredFields st hval
  have hall := onSaveListenerLoop_all_pass props env eventListeners (some fps) postSaveEvent
    (st.data.getD []) (p1 ++ p2) (reducer st Action.SET_IS_LOADING) eventListeners 0 hls
  simp only [onSave, onSaveValidate, onSaveInstancePre, hv, hpv, hinst, hI,
    List.nil_append, Option.getD_some]
  rw [hall]
  simp [onSaveCallSitePre, hps, persistEvents_cons, persistEvents_append,
    persistEvents_preSaveCalls, persistEvents_onSavePersist, reducer, List.append_assoc]

theorem C2_persist_request_witness :
    persistEvents (onSave c2props c6env [] [c7l1]
        (some (fun _ => ⟨true, some [("a", JSValue.vnum 1)]⟩))
        (some (fun _ => ⟨true, some [("c", JSValue.vnum 3)]⟩)) false c10st).2 =
      [SaveEvent.persist ⟨false, some "Widget", c1row,
        some [("a", JSValue.vnum 1), ("b", JSValue.vnum 2), ("c", JSValue.vnum 3)]⟩] := by
  have h := C2_persist_request c2props c6env [] [c7l1]
    (fun _ => ⟨true, some [("a", JSValue.vnum 1)]⟩)
    (fun _ => ⟨true, some [("b", JSValue.vnum 2)]⟩)
    (fun _ => ⟨true, some [("c", JSValue.vnum 3)]⟩)
    [("a", JSValue.vnum 1)] [("b", JSValue.vnum 2)] [("c", JSValue.vnum 3)] false c10st
    rfl rfl rfl (by decide) (by decide) rfl
  simpa [c10st, c1md, c1row] using h

end FormBuilder

